import Mathlib

/-!
Shallow embedding of `src/app.py`, a small chat front-end consisting of a
model-inventory reader (`get_models`) and a chat relay (`chat_with_model`),
plus the UI submit handler (`respond`).  Python strings are modelled through
their character lists; the external subprocess call and the remote chat
endpoint are modelled as explicit inputs (an outcome value, respectively a
function argument), so that the pure parsing and assembly logic is translated
line by line from the source.
-/

namespace App

/-- One parsed row of the inventory table, the dict
`{'name': ..., 'full_name': ..., 'size': ..., 'modified': ...}` built in
`get_models`. -/
structure ModelRecord where
  name : String
  full_name : String
  size : String
  modified : String
deriving DecidableEq, Repr

/-- Python `not line.strip()`: the stripped string is empty exactly when every
character of the line is whitespace. -/
def pyBlank (line : String) : Bool :=
  line.toList.all Char.isWhitespace

/-- Helper for `pySplitWs`: scans the characters accumulating the current
token (in reverse) and emitting it at each whitespace boundary. -/
def wsSplitAux : List Char → List Char → List String
  | [], acc => if acc.isEmpty then [] else [String.mk acc.reverse]
  | c :: cs, acc =>
    if c.isWhitespace then
      if acc.isEmpty then wsSplitAux cs []
      else String.mk acc.reverse :: wsSplitAux cs []
    else wsSplitAux cs (c :: acc)

/-- Python `line.split()` with no argument: split on runs of whitespace,
discarding empty tokens. -/
def pySplitWs (s : String) : List String :=
  wsSplitAux s.toList []

/-- Python `s.strip()`: drop leading and trailing whitespace characters. -/
def pyStrip (s : String) : String :=
  String.mk (((s.toList.dropWhile Char.isWhitespace).reverse.dropWhile
    Char.isWhitespace).reverse)

/-- Helper for `occursIn`: `tok` begins at the head of `s`. -/
def tokStartsAt : List Char → List Char → Bool
  | [], _ => true
  | _ :: _, [] => false
  | a :: as, b :: bs => a == b && tokStartsAt as bs

/-- Substring occurrence over character lists. -/
def occursIn (tok : List Char) : List Char → Bool
  | [] => tokStartsAt tok []
  | c :: hs => tokStartsAt tok (c :: hs) || occursIn tok hs

/-- Python `tok in s` for strings: substring containment. -/
def pyIn (tok s : String) : Bool :=
  occursIn tok.toList s.toList

/-- Python `name.split(':')[0]`: the part of the string before its first
colon, the whole string when it has none. -/
def beforeColon (s : String) : String :=
  String.mk (s.toList.takeWhile (fun c => c ≠ ':'))

/-- The fallback record returned by `get_models` whenever the inventory
command fails or yields no parseable row. -/
def placeholderRecord : ModelRecord :=
  { name := "llama2", full_name := "llama2:7b", size := "Unknown",
    modified := "Unknown" }

/-- The per-line body of the parsing loop in `get_models`: skip blank lines,
split on whitespace, require at least four tokens, and build the record from
the first token (identifier), the next two (size) and the rest (timestamp). -/
def parseLine (line : String) : Option ModelRecord :=
  if pyBlank line then none
  else
    let parts := pySplitWs line
    if 4 ≤ parts.length then
      let name := parts.headD ""
      some { name := beforeColon name
             full_name := name
             size := parts.getD 1 "" ++ " " ++ parts.getD 2 ""
             modified := String.intercalate " " (parts.drop 3) }
    else none

/-- Helper for `stdoutLines`: Python `s.split('\n')`, which keeps empty
pieces and yields one piece more than the number of newlines. -/
def nlSplitAux : List Char → List Char → List String
  | [], acc => [String.mk acc.reverse]
  | c :: cs, acc =>
    if c = '\x0a' then String.mk acc.reverse :: nlSplitAux cs []
    else nlSplitAux cs (c :: acc)

/-- Python `result.stdout.strip().split('\n')` in `get_models`. -/
def stdoutLines (stdout : String) : List String :=
  nlSplitAux (pyStrip stdout).toList []

/-- The parsing stage of `get_models`: skip the first line when it contains
the header token `NAME`, then run the per-line parser over the rest. -/
def parseModels (stdout : String) : List ModelRecord :=
  let lines := stdoutLines stdout
  let start_idx := if pyIn "NAME" (lines.headD "") then 1 else 0
  (lines.drop start_idx).filterMap parseLine

/-- Outcome of `subprocess.run(['ollama', 'list'], ...)`: either a completed
process with exit code, stdout and stderr, or an exception raised inside the
`try` block, carrying `str(e)`. -/
inductive RunResult where
  | ok (returncode : Int) (stdout : String) (stderr : String)
  | exn (msg : String)
deriving DecidableEq, Repr

/-- `get_models`, with the subprocess outcome passed in explicitly: on a
non-zero exit code or an exception it returns the placeholder list, otherwise
it parses stdout and substitutes the placeholder when no row parsed. -/
def get_models (res : RunResult) : List ModelRecord :=
  match res with
  | RunResult.exn _ => [placeholderRecord]
  | RunResult.ok rc out _ =>
    if rc ≠ 0 then [placeholderRecord]
    else
      let models := parseModels out
      if models = [] then [placeholderRecord] else models

/-- One `{"role": ..., "content": ...}` entry of the messages payload. -/
structure ChatMessage where
  role : String
  content : String
deriving DecidableEq, Repr

/-- The fixed system instruction prepended by `chat_with_model`. -/
def system_message : String :=
  "You are an AI programming assistant. When asked about code:\x0a        1. Provide clear, well-commented code examples\x0a        2. Explain your reasoning and approach\x0a        3. Highlight best practices and potential pitfalls\x0a        4. Use markdown formatting for code blocks\x0a        "

/-- The generation options dict `{"temperature": temperature}`. -/
structure GenOptions where
  temperature : Float
deriving Repr

/-- The keyword arguments of the `ollama.chat` call. -/
structure ChatRequest where
  model : String
  messages : List ChatMessage
  options : GenOptions
deriving Repr

/-- Outcome of the `ollama.chat` call together with the subsequent
`response['message']['content']` access: either the textual content of the
response message, or an exception carrying `str(e)`. -/
inductive ChatOutcome where
  | success (content : String)
  | failure (msg : String)
deriving DecidableEq, Repr

/-- The messages list assembled by `chat_with_model`: the system instruction,
then the history loop appending a user/assistant pair per turn, then the new
message. -/
def buildMessages (message : String) (history : List (String × String)) :
    List ChatMessage :=
  let messages : List ChatMessage := [{ role := "system", content := system_message }]
  let messages := history.foldl
    (fun msgs p => msgs ++ [{ role := "user", content := p.1 },
                            { role := "assistant", content := p.2 }]) messages
  messages ++ [{ role := "user", content := message }]

/-- The request `chat_with_model` sends to the endpoint. -/
def chatRequest (message : String) (history : List (String × String))
    (model_name : String) (temperature : Float) : ChatRequest :=
  { model := model_name
    messages := buildMessages message history
    options := { temperature := temperature } }

/-- `chat_with_model`, with the remote endpoint passed in as a function: on
success it returns the response content, and any exception is caught and
rendered as `"Error: " ++ str(e)`. -/
def chat_with_model (endpoint : ChatRequest → ChatOutcome) (message : String)
    (history : List (String × String)) (model_name : String)
    (temperature : Float) : String :=
  match endpoint (chatRequest message history model_name temperature) with
  | ChatOutcome.success content => content
  | ChatOutcome.failure e => "Error: " ++ e

/-- State-passing form of `chat_with_model`: the history list the caller owns
is threaded through the call, and the result pairs the returned string with
the history as the caller sees it afterwards.  Every statement of the source
writes only the local `messages` list, so the threaded history is returned as
received on both the success and the error path. -/
def chat_with_model_st (endpoint : ChatRequest → ChatOutcome) (message : String)
    (history : List (String × String)) (model_name : String)
    (temperature : Float) : String × List (String × String) :=
  match endpoint (chatRequest message history model_name temperature) with
  | ChatOutcome.success content => (content, history)
  | ChatOutcome.failure e => ("Error: " ++ e, history)

/-- The UI submit handler `respond`: an empty (falsy) message returns the
history untouched, otherwise the relay is invoked and the turn appended. -/
def respond (endpoint : ChatRequest → ChatOutcome) (message : String)
    (chat_history : List (String × String)) (model_name : String)
    (temp : Float) : String × List (String × String) :=
  if message.isEmpty then ("", chat_history)
  else
    let bot_message := chat_with_model endpoint message chat_history model_name temp
    ("", chat_history ++ [(message, bot_message)])

/-- The user/assistant pairs contributed by the history, one pair per turn. -/
def turnMessages (history : List (String × String)) : List ChatMessage :=
  history.flatMap fun p => [{ role := "user", content := p.1 },
                            { role := "assistant", content := p.2 }]

/-- Python `s.startswith(p)`: the string `s` begins with `p`. -/
def strStartsWith (s p : String) : Bool :=
  tokStartsAt p.toList s.toList

/-- The failure cases of the inventory read: an exception, a non-zero exit
code, or stdout in which no row parsed. -/
def inventoryFailed (res : RunResult) : Prop :=
  match res with
  | RunResult.exn _ => True
  | RunResult.ok rc out _ => rc ≠ 0 ∨ parseModels out = []

theorem tokStartsAt_append (l r : List Char) : tokStartsAt l (l ++ r) = true := by
  induction l with
  | nil => rfl
  | cons c cs ih => simp [tokStartsAt, ih]

theorem wsSplitAux_of_all_ws (cs : List Char)
    (h : cs.all Char.isWhitespace = true) : wsSplitAux cs [] = [] := by
  induction cs with
  | nil => rfl
  | cons c cs ih =>
    rw [List.all_cons, Bool.and_eq_true] at h
    simp only [wsSplitAux, h.1, if_true, List.isEmpty_nil]
    exact ih h.2

theorem pySplitWs_of_blank (line : String) (h : pyBlank line = true) :
    pySplitWs line = [] :=
  wsSplitAux_of_all_ws line.toList h

theorem parseLine_name_eq (line : String) (r : ModelRecord)
    (hp : parseLine line = some r) : r.name = beforeColon r.full_name := by
  simp only [parseLine] at hp
  split_ifs at hp with h1 h2
  · injection hp with hr
    subst hr
    rfl

theorem beforeColon_of_no_colon (s : String) (h : ':' ∉ s.toList) :
    beforeColon s = s := by
  unfold beforeColon
  rw [List.takeWhile_eq_self_iff.mpr]
  · rfl
  · intro c hc
    simp only [decide_eq_true_eq]
    intro he
    exact h (he ▸ hc)

theorem foldl_turns (history : List (String × String)) (init : List ChatMessage) :
    history.foldl
      (fun msgs p => msgs ++ [{ role := "user", content := p.1 },
                              { role := "assistant", content := p.2 }]) init
      = init ++ turnMessages history := by
  induction history generalizing init with
  | nil => simp [turnMessages]
  | cons p t ih => simp [turnMessages, List.flatMap_cons, ih, List.append_assoc]

theorem buildMessages_eq (message : String) (history : List (String × String)) :
    buildMessages message history =
      { role := "system", content := system_message } ::
        (turnMessages history ++ [{ role := "user", content := message }]) := by
  simp only [buildMessages]
  rw [foldl_turns]
  simp

theorem turnMessages_length (history : List (String × String)) :
    (turnMessages history).length = 2 * history.length := by
  induction history with
  | nil => rfl
  | cons p t ih =>
    simp only [turnMessages, List.flatMap_cons, List.length_append,
      List.length_cons, List.length_nil] at *
    omega

theorem turnMessages_getElem (history : List (String × String)) :
    ∀ i, i < history.length →
      (turnMessages history)[2 * i]?
          = some { role := "user", content := (history.getD i ("", "")).1 } ∧
      (turnMessages history)[2 * i + 1]?
          = some { role := "assistant", content := (history.getD i ("", "")).2 } := by
  induction history with
  | nil => intro i hi; exact absurd hi (by simp)
  | cons p t ih =>
    intro i hi
    cases i with
    | zero => exact ⟨by simp [turnMessages], by simp [turnMessages]⟩
    | succ j =>
      have hj : j < t.length := by
        simpa [Nat.succ_lt_succ_iff] using hi
      have e1 : 2 * (j + 1) = 2 * j + 1 + 1 := by omega
      rw [e1]
      simp only [turnMessages, List.flatMap_cons, List.cons_append,
        List.nil_append, List.getElem?_cons_succ, List.getD_cons_succ]
      exact ih j hj

/-- C1: whenever the chat endpoint raises on the assembled request,
`chat_with_model` returns a string beginning with `"Error: "`; being a total
function of the endpoint outcome, it propagates no exception to its caller. -/
theorem chat_with_model_catches_exception (endpoint : ChatRequest → ChatOutcome)
    (message : String) (history : List (String × String)) (model_name : String)
    (temperature : Float) (e : String)
    (h : endpoint (chatRequest message history model_name temperature)
          = ChatOutcome.failure e) :
    strStartsWith
      (chat_with_model endpoint message history model_name temperature)
      "Error: " = true := by
  unfold chat_with_model
  rw [h]
  show strStartsWith ("Error: " ++ e) "Error: " = true
  unfold strStartsWith
  rw [show ("Error: " ++ e).toList = "Error: ".toList ++ e.toList from rfl]
  exact tokStartsAt_append _ _

theorem chat_with_model_catches_exception_witness :
    strStartsWith
      (chat_with_model (fun _ => ChatOutcome.failure "connection refused")
        "hi" [] "llama2:7b" 0.7)
      "Error: " = true :=
  chat_with_model_catches_exception (fun _ => ChatOutcome.failure "connection refused")
    "hi" [] "llama2:7b" 0.7 "connection refused" rfl

/-- C2: `get_models` never returns an empty list, and on every failure case
(exception, non-zero exit code, or stdout with no parseable row) it returns
exactly the one placeholder record, whose name is `"llama2"` and whose full
name is `"llama2:7b"`. -/
theorem get_models_never_empty (res : RunResult) :
    get_models res ≠ [] ∧
    (inventoryFailed res → get_models res = [placeholderRecord]) ∧
    placeholderRecord.name = "llama2" ∧
    placeholderRecord.full_name = "llama2:7b" := by
  refine ⟨?_, ?_, rfl, rfl⟩
  · cases res with
    | exn m => simp [get_models]
    | ok rc out err =>
      simp only [get_models]
      split
      · simp
      · split
        · simp
        · next hne => exact hne
  · intro hf
    cases res with
    | exn m => rfl
    | ok rc out err =>
      simp only [get_models]
      rcases hf with h | h
      · simp [h]
      · split
        · rfl
        · simp [h]

theorem get_models_never_empty_witness :
    get_models (RunResult.ok 1 "" "") = [placeholderRecord] :=
  (get_models_never_empty (RunResult.ok 1 "" "")).2.1 (Or.inl (by decide))

/-- C6: an output line whose whitespace split has fewer than four tokens is
parsed to no record and contributes nothing to the per-line parsing stage of
`get_models`. -/
theorem short_line_dropped (line : String)
    (h : (pySplitWs line).length < 4) :
    parseLine line = none ∧
    ∀ pre post : List String,
      (pre ++ line :: post).filterMap parseLine
        = (pre ++ post).filterMap parseLine := by
  have hnone : parseLine line = none := by
    simp only [parseLine]
    split_ifs with h1 h2
    · rfl
    · exact absurd h2 (by omega)
    · rfl
  refine ⟨hnone, fun pre post => ?_⟩
  simp [List.filterMap_append, List.filterMap_cons, hnone]

theorem short_line_dropped_witness :
    parseLine "llama2:7b 3.8 GB" = none :=
  (short_line_dropped "llama2:7b 3.8 GB" (by decide)).1

/-- C7: the parsing stage of `get_models` drops the first stdout line exactly
when that line contains the token `NAME`; otherwise the first line is fed to
the per-line parser like every other line. -/
theorem header_line_skipped (out : String) :
    (pyIn "NAME" ((stdoutLines out).headD "") = true →
      parseModels out = ((stdoutLines out).drop 1).filterMap parseLine) ∧
    (pyIn "NAME" ((stdoutLines out).headD "") = false →
      parseModels out = (stdoutLines out).filterMap parseLine) := by
  constructor <;> intro h <;> simp only [parseModels] <;> rw [h] <;> simp

theorem header_line_skipped_witness :
    parseModels "NAME ID SIZE MODIFIED\x0aqwen:7b x 4 GB today"
      = ((stdoutLines "NAME ID SIZE MODIFIED\x0aqwen:7b x 4 GB today").drop 1).filterMap
          parseLine :=
  (header_line_skipped "NAME ID SIZE MODIFIED\x0aqwen:7b x 4 GB today").1 (by decide)

/-- C8: the relay leaves the history owned by its caller unchanged: in the
state-passing embedding the history coming back to the caller equals the one
passed in, on the success path and on the error path alike, and the reply is
the same as the pure relay result. -/
theorem chat_with_model_preserves_history (endpoint : ChatRequest → ChatOutcome)
    (message : String) (history : List (String × String)) (model_name : String)
    (temperature : Float) :
    (chat_with_model_st endpoint message history model_name temperature).2
        = history ∧
    (chat_with_model_st endpoint message history model_name temperature).1
        = chat_with_model endpoint message history model_name temperature := by
  unfold chat_with_model_st chat_with_model
  cases endpoint (chatRequest message history model_name temperature) <;>
    exact ⟨rfl, rfl⟩

/-- C10: on an empty (falsy) message, `respond` returns the pair of an empty
textbox value and the unchanged history, and the relay endpoint is never
consulted: the result does not depend on it. -/
theorem respond_empty_message (endpoint endpoint2 : ChatRequest → ChatOutcome)
    (message : String) (h : message.isEmpty = true)
    (chat_history : List (String × String)) (model_name : String)
    (temp : Float) :
    respond endpoint message chat_history model_name temp
        = ("", chat_history) ∧
    respond endpoint message chat_history model_name temp
        = respond endpoint2 message chat_history model_name temp := by
  unfold respond
  simp [h]

theorem respond_empty_message_witness :
    respond (fun _ => ChatOutcome.success "ok") "" [("a", "b")] "llama2:7b" 0.7
      = ("", [("a", "b")]) :=
  (respond_empty_message (fun _ => ChatOutcome.success "ok")
    (fun _ => ChatOutcome.failure "down") "" rfl [("a", "b")] "llama2:7b" 0.7).1

/-- C3: the messages payload assembled by the relay for a history of N turns
has length 1 + 2N + 1 (hence length 2 on an empty history), and the
user/assistant pair of the i-th turn sits at positions 1 + 2i and 2 + 2i, in
the order of the history. -/
theorem relay_payload_shape (message : String) (history : List (String × String))
    (model_name : String) (temperature : Float) :
    (chatRequest message history model_name temperature).messages.length
        = 1 + 2 * history.length + 1 ∧
    ∀ i, i < history.length →
      (chatRequest message history model_name temperature).messages[1 + 2 * i]?
          = some { role := "user", content := (history.getD i ("", "")).1 } ∧
      (chatRequest message history model_name temperature).messages[2 + 2 * i]?
          = some { role := "assistant", content := (history.getD i ("", "")).2 } := by
  have hm : (chatRequest message history model_name temperature).messages
      = { role := "system", content := system_message } ::
          (turnMessages history ++ [{ role := "user", content := message }]) := by
    simp [chatRequest, buildMessages_eq]
  constructor
  · rw [hm]
    simp only [List.length_cons, List.length_append, List.length_nil,
      turnMessages_length]
    omega
  · intro i hi
    rw [hm]
    have e1 : 1 + 2 * i = 2 * i + 1 := by omega
    have e2 : 2 + 2 * i = 2 * i + 1 + 1 := by omega
    rw [e1, e2]
    rw [List.getElem?_cons_succ, List.getElem?_cons_succ]
    have hlt : 2 * i < (turnMessages history).length := by
      rw [turnMessages_length]; omega
    have hlt2 : 2 * i + 1 < (turnMessages history).length := by
      rw [turnMessages_length]; omega
    rw [List.getElem?_append_left hlt, List.getElem?_append_left hlt2]
    exact turnMessages_getElem history i hi

theorem relay_payload_shape_witness :
    (chatRequest "hi" [] "llama2:7b" 0.7).messages.length = 2 ∧
    (chatRequest "hi" [("a", "b")] "llama2:7b" 0.7).messages.length = 1 + 2 * 1 + 1 ∧
    (chatRequest "hi" [("a", "b")] "llama2:7b" 0.7).messages[1 + 2 * 0]?
      = some { role := "user", content := "a" } :=
  ⟨(relay_payload_shape "hi" [] "llama2:7b" 0.7).1,
   (relay_payload_shape "hi" [("a", "b")] "llama2:7b" 0.7).1,
   ((relay_payload_shape "hi" [("a", "b")] "llama2:7b" 0.7).2 0 (by decide)).1⟩

/-- C4: a line whose whitespace split has at least four tokens parses to the
record whose name is the first token up to its first colon, whose full name
is the whole first token, whose size joins the second and third tokens with
one space, and whose modified field joins all remaining tokens. -/
theorem line_parsed_fields (line : String)
    (h : 4 ≤ (pySplitWs line).length) :
    parseLine line = some
      { name := beforeColon ((pySplitWs line).headD "")
        full_name := (pySplitWs line).headD ""
        size := (pySplitWs line).getD 1 "" ++ " " ++ (pySplitWs line).getD 2 ""
        modified := String.intercalate " " ((pySplitWs line).drop 3) } := by
  have hb : pyBlank line = false := by
    cases hpb : pyBlank line with
    | false => rfl
    | true =>
      have := pySplitWs_of_blank line hpb
      rw [this] at h
      exact absurd h (by simp)
  simp only [parseLine, hb, Bool.false_eq_true, if_false, h, if_true]

theorem line_parsed_fields_witness :
    parseLine "llama2:7b 3.8 GB 2 days ago" = some
      { name := "llama2", full_name := "llama2:7b", size := "3.8 GB",
        modified := "2 days ago" } := by
  have := line_parsed_fields "llama2:7b 3.8 GB 2 days ago" (by decide)
  rw [this]
  decide

/-- C5: the request the relay sends starts with the fixed system instruction,
lists one user/assistant pair per prior turn in order, ends with the new
message as a user entry, carries the model identifier and the temperature as
the generation option, and on success the relay returns exactly the content
of the response message. -/
theorem relay_request_and_success (endpoint : ChatRequest → ChatOutcome)
    (message : String) (history : List (String × String)) (model_name : String)
    (temperature : Float) (content : String)
    (h : endpoint (chatRequest message history model_name temperature)
          = ChatOutcome.success content) :
    (chatRequest message history model_name temperature).messages.head?
        = some { role := "system", content := system_message } ∧
    (chatRequest message history model_name temperature).messages
        = { role := "system", content := system_message } ::
            (turnMessages history ++ [{ role := "user", content := message }]) ∧
    (chatRequest message history model_name temperature).messages.getLast?
        = some { role := "user", content := message } ∧
    (chatRequest message history model_name temperature).model = model_name ∧
    (chatRequest message history model_name temperature).options.temperature
        = temperature ∧
    chat_with_model endpoint message history model_name temperature = content := by
  have hm : (chatRequest message history model_name temperature).messages
      = { role := "system", content := system_message } ::
          (turnMessages history ++ [{ role := "user", content := message }]) := by
    simp [chatRequest, buildMessages_eq]
  refine ⟨?_, hm, ?_, rfl, rfl, ?_⟩
  · rw [hm]; rfl
  · rw [hm]
    rw [show { role := "system", content := system_message } ::
          (turnMessages history ++ [{ role := "user", content := message }])
        = ({ role := "system", content := system_message } :: turnMessages history)
            ++ [{ role := "user", content := message }] from by simp]
    exact List.getLast?_concat _
  · unfold chat_with_model
    rw [h]

theorem relay_request_and_success_witness :
    chat_with_model (fun _ => ChatOutcome.success "use a loop") "hi" [("a", "b")]
      "llama2:7b" 0.7 = "use a loop" :=
  (relay_request_and_success (fun _ => ChatOutcome.success "use a loop") "hi"
    [("a", "b")] "llama2:7b" 0.7 "use a loop" rfl).2.2.2.2.2

/-- C9: every record `get_models` returns, the placeholder included, has its
name equal to its full name truncated at the first colon; when the full name
has no colon the two coincide. -/
theorem record_name_invariant (res : RunResult) (r : ModelRecord)
    (h : r ∈ get_models res) :
    r.name = beforeColon r.full_name ∧
    (':' ∉ r.full_name.toList → r.name = r.full_name) := by
  have hmain : r.name = beforeColon r.full_name := by
    have hplaceholder : placeholderRecord.name = beforeColon placeholderRecord.full_name := by
      decide
    cases res with
    | exn m =>
      simp only [get_models, List.mem_singleton] at h
      rw [h]
      exact hplaceholder
    | ok rc out err =>
      simp only [get_models] at h
      split at h
      · rw [List.mem_singleton] at h
        rw [h]; exact hplaceholder
      · split at h
        · rw [List.mem_singleton] at h
          rw [h]; exact hplaceholder
        · rw [parseModels, List.mem_filterMap] at h
          obtain ⟨line, _, hp⟩ := h
          exact parseLine_name_eq line r hp
  refine ⟨hmain, fun hc => ?_⟩
  rw [hmain]
  exact beforeColon_of_no_colon _ hc

theorem record_name_invariant_witness :
    (⟨"a", "a", "b c", "d"⟩ : ModelRecord).name
        = beforeColon (⟨"a", "a", "b c", "d"⟩ : ModelRecord).full_name ∧
    (⟨"a", "a", "b c", "d"⟩ : ModelRecord).name
        = (⟨"a", "a", "b c", "d"⟩ : ModelRecord).full_name :=
  ⟨(record_name_invariant (RunResult.ok 0 "a b c d" "")
      ⟨"a", "a", "b c", "d"⟩ (by decide)).1,
   (record_name_invariant (RunResult.ok 0 "a b c d" "")
      ⟨"a", "a", "b c", "d"⟩ (by decide)).2 (by decide)⟩

end App
